import Mathlib

/-!
Verification of the autoversion GitHub action core (`src/index.js`).

The JavaScript source is shallowly embedded: strings are Lean `String`s
manipulated through their underlying `List Char`, JS numbers produced by
`parseInt` are `Int`s, and the GitHub remote (octokit) is an abstract
`TagStore` whose behaviour is an input of `run`.  Every remote call the
action performs is recorded in a `StoreOp` trace so that theorems can speak
about which calls were made.
-/

namespace Autoversion

/-! ## Decimal digits and JS number formatting/parsing -/

/-- Numeric value of a list of decimal digit characters, most significant
first (the value `parseInt` assigns to a digit string). -/
def digitsVal (l : List Char) : Nat :=
  l.foldl (fun a c => 10 * a + (c.toNat - 48)) 0

/-- The character for a decimal digit `d < 10`. -/
def digitChar (d : Nat) : Char := Char.ofNat (48 + d)

/-- Fuelled canonical decimal printing of a natural number (the JS
`Number.prototype.toString` output for non-negative integers). -/
def natToDecAux : Nat → Nat → List Char
  | 0, _ => []
  | fuel + 1, n =>
    if n < 10 then [digitChar n]
    else natToDecAux fuel (n / 10) ++ [digitChar (n % 10)]

/-- Canonical decimal representation of a natural number. -/
def natToDec (n : Nat) : List Char := natToDecAux (n + 1) n

/-- JS string conversion of an integer (template-literal interpolation of a
number). -/
def intToDec (i : Int) : List Char :=
  if i < 0 then '-' :: natToDec i.natAbs else natToDec i.toNat

/-- Maximal leading run of decimal digit characters, and the remainder. -/
def takeDigits : List Char → List Char × List Char
  | [] => ([], [])
  | c :: cs =>
    if c.isDigit then
      let p := takeDigits cs
      (c :: p.1, p.2)
    else ([], c :: cs)

/-- Model of JS `parseInt` (radix 10) on an already-trimmed string: an
optional sign followed by a maximal run of decimal digits; `none` models
`NaN`.  Leading whitespace and hex prefixes are not modelled. -/
def jsParseIntL (l : List Char) : Option Int :=
  match l with
  | [] => none
  | c :: rest =>
    if c = '-' then
      let d := (takeDigits rest).1
      if d = [] then none else some (-(digitsVal d : Int))
    else if c = '+' then
      let d := (takeDigits rest).1
      if d = [] then none else some (digitsVal d : Int)
    else
      let d := (takeDigits (c :: rest)).1
      if d = [] then none else some (digitsVal d : Int)

/-- JS `parseInt(s) || 0`: `NaN` (and `0` itself) collapse to `0`. -/
def jsParseIntOr0 (s : String) : Int := (jsParseIntL s.data).getD 0

/-! ## Generic list/string helpers used by the embedding -/

/-- `listStartsWith pat l` : does `l` start with `pat`? -/
def listStartsWith : List Char → List Char → Bool
  | [], _ => true
  | _ :: _, [] => false
  | p :: ps, c :: cs => p == c && listStartsWith ps cs

/-- Remove the first occurrence of `pat` from `l` (JS
`String.prototype.replace(pat, '')` with a string pattern). -/
def stripFirst (pat : List Char) : List Char → List Char
  | [] => []
  | c :: cs =>
    if listStartsWith pat (c :: cs) then (c :: cs).drop pat.length
    else c :: stripFirst pat cs

/-- JS `String.prototype.split` on a single-character separator. -/
def splitOnChar (sep : Char) : List Char → List (List Char)
  | [] => [[]]
  | c :: cs =>
    if c = sep then [] :: splitOnChar sep cs
    else
      match splitOnChar sep cs with
      | [] => [[c]]
      | h :: t => (c :: h) :: t

/-- JS `Array.prototype.join(',')`. -/
def joinComma : List String → String
  | [] => ""
  | [s] => s
  | s :: rest => s ++ "," ++ joinComma rest

/-! ## Data model -/

/-- A resolved semantic version (`{major, minor, patch}` in the source).
Fields are `Int` because they are produced by JS `parseInt`. -/
structure SemVer where
  major : Int
  minor : Int
  patch : Int
deriving DecidableEq

/-- `"MAJOR.MINOR.PATCH"` output string for a version. -/
def verString (v : SemVer) : String :=
  String.mk (intToDec v.major) ++ "." ++ String.mk (intToDec v.minor) ++ "." ++
    String.mk (intToDec v.patch)

/-! ## getVersionFromPackageJson (src/index.js lines 9-27)

The filesystem/JSON side is abstracted into `Option String`: `some s` means
package.json exists, parses, and declares the (truthy) version string `s`;
`none` collapses file-absent / parse-error / missing version, exactly the
cases in which the JS function returns `null`. -/

def getVersionFromPackageJson (manifest : Option String) : Option SemVer :=
  match manifest with
  | none => none
  | some s =>
    let parts := splitOnChar '.' s.data
    some
      { major := (jsParseIntL (parts.getD 0 [])).getD 0
        minor := (jsParseIntL (parts.getD 1 [])).getD 0
        patch := (jsParseIntL (parts.getD 2 [])).getD 0 }

/-! ## getVersionFromBranchName (src/index.js lines 33-50)

The JS regex `/release\/v?(\d+)(?:\.(\d+))?(?:\.(\d+))?/` is unanchored and
greedy; `matchVersionHere` models a match attempt at one position and
`findVersion` the leftmost search. -/

/-- Attempt the branch-version pattern at the head of `cs`. -/
def matchVersionHere (cs : List Char) : Option (Nat × Option Nat × Option Nat) :=
  if listStartsWith ("release/".data) cs then
    let rest0 := cs.drop 8
    let rest1 := match rest0 with
      | 'v' :: t => t
      | _ => rest0
    let p1 := takeDigits rest1
    if p1.1 = [] then none
    else
      match p1.2 with
      | '.' :: r2 =>
        let p2 := takeDigits r2
        if p2.1 = [] then some (digitsVal p1.1, none, none)
        else
          match p2.2 with
          | '.' :: r4 =>
            let p3 := takeDigits r4
            if p3.1 = [] then some (digitsVal p1.1, some (digitsVal p2.1), none)
            else some (digitsVal p1.1, some (digitsVal p2.1), some (digitsVal p3.1))
          | _ => some (digitsVal p1.1, some (digitsVal p2.1), none)
      | _ => some (digitsVal p1.1, none, none)
  else none

/-- Leftmost match of the branch-version pattern. -/
def findVersion : List Char → Option (Nat × Option Nat × Option Nat)
  | [] => none
  | c :: cs =>
    match matchVersionHere (c :: cs) with
    | some r => some r
    | none => findVersion cs

/-- Extract a version from a release branch name; absent minor/patch groups
default to `0` (`parseInt(match[i]) || 0`).  The `pattern` input of the JS
function is never used by it. -/
def getVersionFromBranchName (branchName : String) (_pat : String) : Option SemVer :=
  let bn := stripFirst ("refs/heads/".data) branchName.data
  match findVersion bn with
  | some r => some { major := (r.1 : Int), minor := ((r.2.1.getD 0 : Nat) : Int),
                     patch := ((r.2.2.getD 0 : Nat) : Int) }
  | none => none

/-! ## getNextPatchVersion (src/index.js lines 55-85) -/

/-- Anchored match of a tag name against `^{prefix}{major}\.{minor}\.(\d+)$`
(the operator-supplied prefix is regex-escaped in the source, hence a literal
here), returning the captured patch number. -/
def tagPatch (pre : List Char) (major minor : Int) (name : List Char) : Option Nat :=
  let full := pre ++ intToDec major ++ '.' :: intToDec minor ++ ['.']
  if listStartsWith full name then
    let rest := name.drop full.length
    if rest ≠ [] ∧ rest.all Char.isDigit = true then some (digitsVal rest) else none
  else none

/-- Next patch number from the listed tags.  `tagsResult = none` models
`listTags` throwing: the source logs a warning and returns `0`.  The
`tag-prefix` input is re-read inside the JS function, with default `v`. -/
def getNextPatchVersion (tagsResult : Option (List String)) (tagPrefixInput : String)
    (major minor : Int) : Int :=
  match tagsResult with
  | none => 0
  | some tags =>
    let pre := if tagPrefixInput = "" then "v" else tagPrefixInput
    let maxPatch : Int := tags.foldl (fun acc t =>
      match tagPatch pre.data major minor t.data with
      | some p => if (p : Int) > acc then (p : Int) else acc
      | none => acc) (-1)
    maxPatch + 1

/-! ## The tag store and createOrUpdateTag (src/index.js lines 90-133) -/

/-- Result of the `getRef` existence probe: the tag exists, a 404 (absent),
or a non-404 error (which the source re-throws into its outer catch). -/
inductive RefStatus
  | found
  | notFound
  | errOther
deriving DecidableEq

/-- Abstract remote tag store: existence probe outcome per tag name, and
whether `createRef` / `updateRef` succeed on a given tag. -/
structure TagStore where
  refStatus : String → RefStatus
  createOk : String → Bool
  updateOk : String → Bool

/-- A remote call made during a run. -/
inductive StoreOp
  | listTags
  | getRef (tag : String)
  | createRef (tag : String) (sha : String)
  | updateRef (tag : String) (sha : String)
deriving DecidableEq

/-- Create the tag when absent, force-update it when present; any failure is
caught and reported as `false`.  Also returns the remote calls made. -/
def createOrUpdateTag (store : TagStore) (tagName sha : String) : Bool × List StoreOp :=
  match store.refStatus tagName with
  | RefStatus.errOther => (false, [StoreOp.getRef tagName])
  | RefStatus.found =>
    (store.updateOk tagName, [StoreOp.getRef tagName, StoreOp.updateRef tagName sha])
  | RefStatus.notFound =>
    (store.createOk tagName, [StoreOp.getRef tagName, StoreOp.createRef tagName sha])

/-! ## run (src/index.js lines 138-258) -/

/-- The action's inputs, as returned by `core.getInput` (an unset input is
the empty string). -/
structure Inputs where
  releaseBranchPattern : String
  versionSource : String
  tagPrefixInput : String
  createTagsInput : String
  githubToken : String
  majorVersionInput : String
  minorVersionInput : String
  patchVersionInput : String

/-- The GitHub context and remote state a run executes against. -/
structure Env where
  ref : String
  sha : String
  manifest : Option String
  listTagsResult : Option (List String)
  store : TagStore

/-- The five `core.setOutput` values of a completed run. -/
structure Outputs where
  version : String
  tags : String
  majorTag : String
  minorTag : String
  patchTag : String
deriving DecidableEq

/-- Observable result of a run: the `setFailed` message if any, the warnings
logged, the outputs if reached, the remote calls made, and whether the
manifest was consulted. -/
structure RunResult where
  failed : Option String
  warnings : List String
  outputs : Option Outputs
  ops : List StoreOp
  manifestRead : Bool
deriving DecidableEq

/-- Intermediate result of the version-determination block of `run`
(src/index.js lines 167-210). -/
structure Resolution where
  err : Option String
  ver : Option SemVer
  ops : List StoreOp
  warns : List String
  manifestRead : Bool

/-- Version determination (manual / package.json / auto with branch
fallback), including the conditional auto-increment remote call. -/
def determineVersion (inp : Inputs) (env : Env) (branchName : String) : Resolution :=
  let src := if inp.versionSource = "" then "auto" else inp.versionSource
  let createTags := inp.createTagsInput ≠ "false"
  if src = "manual" then
    { err := none
      ver := some { major := jsParseIntOr0 inp.majorVersionInput
                    minor := jsParseIntOr0 inp.minorVersionInput
                    patch := jsParseIntOr0 inp.patchVersionInput }
      ops := [], warns := [], manifestRead := false }
  else if src = "package.json" then
    match getVersionFromPackageJson env.manifest with
    | some v => { err := none, ver := some v, ops := [], warns := [], manifestRead := true }
    | none => { err := some "Could not read version from package.json", ver := none,
                ops := [], warns := [], manifestRead := true }
  else
    match getVersionFromPackageJson env.manifest with
    | some v => { err := none, ver := some v, ops := [], warns := [], manifestRead := true }
    | none =>
      match getVersionFromBranchName branchName inp.releaseBranchPattern with
      | some v =>
        if v.patch = 0 ∧ createTags ∧ inp.githubToken ≠ "" then
          { err := none
            ver := some { major := v.major, minor := v.minor,
                          patch := getNextPatchVersion env.listTagsResult
                                     inp.tagPrefixInput v.major v.minor }
            ops := [StoreOp.listTags]
            warns := if env.listTagsResult.isNone
                     then ["Could not fetch existing tags"] else []
            manifestRead := true }
        else
          { err := none, ver := some v, ops := [], warns := [], manifestRead := true }
      | none =>
        { err := some "Could not determine version from any source", ver := none,
          ops := [], warns := [], manifestRead := true }

/-- Name of the `{prefix}M` tag. -/
def majorTagName (pre : String) (v : SemVer) : String :=
  pre ++ String.mk (intToDec v.major)

/-- Name of the `{prefix}M.N` tag. -/
def minorTagName (pre : String) (v : SemVer) : String :=
  pre ++ String.mk (intToDec v.major) ++ "." ++ String.mk (intToDec v.minor)

/-- Name of the `{prefix}M.N.P` tag. -/
def patchTagName (pre : String) (v : SemVer) : String :=
  pre ++ String.mk (intToDec v.major) ++ "." ++ String.mk (intToDec v.minor) ++ "." ++
    String.mk (intToDec v.patch)

/-- The main action logic. -/
def run (inp : Inputs) (env : Env) : RunResult :=
  let createTags := inp.createTagsInput ≠ "false"
  if createTags ∧ inp.githubToken = "" then
    { failed := some "github-token is required when create-tags is true"
      warnings := [], outputs := none, ops := [], manifestRead := false }
  else
    let branchName := String.mk (stripFirst ("refs/heads/".data) env.ref.data)
    if listStartsWith ("release/".data) branchName.data then
      let r := determineVersion inp env branchName
      match r.ver with
      | some version =>
        let pre := if inp.tagPrefixInput = "" then "v" else inp.tagPrefixInput
        let majorTag := majorTagName pre version
        let minorTag := minorTagName pre version
        let patchTag := patchTagName pre version
        let step :=
          if createTags then
            let r1 := createOrUpdateTag env.store majorTag env.sha
            let r2 := createOrUpdateTag env.store minorTag env.sha
            let r3 := createOrUpdateTag env.store patchTag env.sha
            ((if r1.1 then [majorTag] else []) ++ (if r2.1 then [minorTag] else []) ++
               (if r3.1 then [patchTag] else []),
             r1.2 ++ r2.2 ++ r3.2)
          else ([], [])
        { failed := none
          warnings := r.warns
          outputs := some { version := verString version, tags := joinComma step.1,
                            majorTag := majorTag, minorTag := minorTag, patchTag := patchTag }
          ops := r.ops ++ step.2
          manifestRead := r.manifestRead }
      | none =>
        { failed := r.err, warnings := r.warns, outputs := none, ops := r.ops,
          manifestRead := r.manifestRead }
    else
      { failed := none, warnings := ["Not on a release branch. Skipping versioning."],
        outputs := none, ops := [], manifestRead := false }

/-! ## Basic facts about decimal printing and parsing -/

theorem digitsVal_append_singleton (l : List Char) (c : Char) :
    digitsVal (l ++ [c]) = 10 * digitsVal l + (c.toNat - 48) := by
  simp [digitsVal, List.foldl_append]

theorem digitChar_isDigit {d : Nat} (h : d < 10) : (digitChar d).isDigit = true := by
  interval_cases d <;> decide

theorem digitChar_toNat {d : Nat} (h : d < 10) : (digitChar d).toNat = 48 + d := by
  interval_cases d <;> decide

theorem natToDecAux_spec :
    ∀ (fuel n : Nat), n < 10 ^ (fuel + 1) →
      natToDecAux (fuel + 1) n ≠ [] ∧
      (natToDecAux (fuel + 1) n).all Char.isDigit = true ∧
      digitsVal (natToDecAux (fuel + 1) n) = n := by
  intro fuel
  induction fuel with
  | zero =>
    intro n hn
    have h10 : n < 10 := by simpa using hn
    simp only [natToDecAux, if_pos h10]
    refine ⟨by simp, by simp [digitChar_isDigit h10], ?_⟩
    simp [digitsVal, digitChar_toNat h10]
  | succ fuel ih =>
    intro n hn
    by_cases h10 : n < 10
    · simp only [natToDecAux, if_pos h10]
      refine ⟨by simp, by simp [digitChar_isDigit h10], ?_⟩
      simp [digitsVal, digitChar_toNat h10]
    · have hstep : natToDecAux (fuel + 1 + 1) n =
          natToDecAux (fuel + 1) (n / 10) ++ [digitChar (n % 10)] := by
        rw [natToDecAux, if_neg h10]
      rw [hstep]
      have hdiv : n / 10 < 10 ^ (fuel + 1) := by
        rw [Nat.div_lt_iff_lt_mul (by norm_num)]
        calc n < 10 ^ (fuel + 1 + 1) := hn
        _ = 10 ^ (fuel + 1) * 10 := by ring
      obtain ⟨hne, hall, hval⟩ := ih (n / 10) hdiv
      have hmod : n % 10 < 10 := Nat.mod_lt _ (by norm_num)
      refine ⟨by simp, ?_, ?_⟩
      · simp [List.all_append, hall, digitChar_isDigit hmod]
      · rw [digitsVal_append_singleton, hval, digitChar_toNat hmod]
        omega

theorem lt_ten_pow_succ (n : Nat) : n < 10 ^ (n + 1) := by
  calc n < 2 ^ n := Nat.lt_two_pow n
  _ ≤ 10 ^ n := Nat.pow_le_pow_left (by norm_num) n
  _ ≤ 10 ^ (n + 1) := Nat.pow_le_pow_right (by norm_num) (Nat.le_succ n)

theorem natToDec_ne_nil (n : Nat) : natToDec n ≠ [] :=
  (natToDecAux_spec n n (lt_ten_pow_succ n)).1

theorem natToDec_all_digits (n : Nat) : (natToDec n).all Char.isDigit = true :=
  (natToDecAux_spec n n (lt_ten_pow_succ n)).2.1

theorem digitsVal_natToDec (n : Nat) : digitsVal (natToDec n) = n :=
  (natToDecAux_spec n n (lt_ten_pow_succ n)).2.2

theorem takeDigits_all_digits :
    ∀ l : List Char, l.all Char.isDigit = true → takeDigits l = (l, []) := by
  intro l hl
  induction l with
  | nil => rfl
  | cons c cs ih =>
    rw [List.all_cons, Bool.and_eq_true] at hl
    simp [takeDigits, hl.1, ih hl.2]

theorem isDigit_ne_minus {c : Char} (h : c.isDigit = true) : c ≠ '-' := by
  intro he; rw [he] at h; exact absurd h (by decide)

theorem isDigit_ne_plus {c : Char} (h : c.isDigit = true) : c ≠ '+' := by
  intro he; rw [he] at h; exact absurd h (by decide)

theorem jsParseIntL_natToDec (n : Nat) : jsParseIntL (natToDec n) = some (n : Int) := by
  rcases h : natToDec n with _ | ⟨c, cs⟩
  · exact absurd h (natToDec_ne_nil n)
  · have hall : (c :: cs).all Char.isDigit = true := h ▸ natToDec_all_digits n
    rw [List.all_cons, Bool.and_eq_true] at hall
    have htake : takeDigits (c :: cs) = (c :: cs, []) :=
      takeDigits_all_digits _ (by simp [List.all_cons, hall.1, hall.2])
    have hval : digitsVal (c :: cs) = n := h ▸ digitsVal_natToDec n
    simp only [jsParseIntL, if_neg (isDigit_ne_minus hall.1),
      if_neg (isDigit_ne_plus hall.1), htake]
    simp [hval]

theorem jsParseIntOr0_natToDec (n : Nat) :
    jsParseIntOr0 (String.mk (natToDec n)) = (n : Int) := by
  simp [jsParseIntOr0, jsParseIntL_natToDec]

/-! ## The auto-increment fold computes the maximum matched patch -/

theorem foldl_patch_step (fn : String → Option Nat) :
    ∀ (tags : List String) (acc : Int),
      tags.foldl (fun acc t => match fn t with
        | some p => if (p : Int) > acc then (p : Int) else acc
        | none => acc) acc
      = (tags.filterMap fn).foldl (fun (a : Int) (p : Nat) => max a (p : Int)) acc := by
  intro tags
  induction tags with
  | nil => intro acc; rfl
  | cons t ts ih =>
    intro acc
    cases h : fn t with
    | none => simp only [List.foldl_cons, List.filterMap_cons, h]; exact ih acc
    | some p =>
      simp only [List.foldl_cons, List.filterMap_cons, h]
      have hmax : (if (p : Int) > acc then (p : Int) else acc) = max acc (p : Int) := by
        rcases le_or_lt (p : Int) acc with hle | hlt
        · rw [if_neg (not_lt.mpr hle), max_eq_left hle]
        · rw [if_pos hlt, max_eq_right hlt.le]
      rw [hmax, ih]

theorem foldl_max_int_nat :
    ∀ (l : List Nat) (a : Nat),
      l.foldl (fun (x : Int) (p : Nat) => max x (p : Int)) (a : Int)
        = ((l.foldl max a : Nat) : Int) := by
  intro l
  induction l with
  | nil => intro a; rfl
  | cons b bs ih =>
    intro a
    simp only [List.foldl_cons]
    rw [← Nat.cast_max, ih]

theorem foldl_max_neg_one (l : List Nat) :
    l.foldl (fun (x : Int) (p : Nat) => max x (p : Int)) (-1) =
      match l.max? with | none => (-1 : Int) | some mx => (mx : Int) := by
  cases l with
  | nil => rfl
  | cons a as =>
    rw [List.max?_cons']
    simp only [List.foldl_cons]
    have h1 : max (-1 : Int) (a : Int) = (a : Int) := by
      apply max_eq_right
      have : (0 : Int) ≤ (a : Int) := Int.natCast_nonneg a
      omega
    rw [h1, foldl_max_int_nat]

/-! ## Reduction lemmas for `determineVersion` and `run` -/

theorem data_mk (l : List Char) : (String.mk l).data = l := rfl

theorem determineVersion_manifest (inp : Inputs) (env : Env) (b : String) (v : SemVer)
    (hsrc : inp.versionSource = "package.json" ∨ inp.versionSource = "auto")
    (hm : getVersionFromPackageJson env.manifest = some v) :
    determineVersion inp env b =
      { err := none, ver := some v, ops := [], warns := [], manifestRead := true } := by
  rcases hsrc with h | h <;>
    simp [determineVersion, h, hm]

theorem determineVersion_manual (inp : Inputs) (env : Env) (b : String)
    (hsrc : inp.versionSource = "manual") :
    determineVersion inp env b =
      { err := none
        ver := some { major := jsParseIntOr0 inp.majorVersionInput
                      minor := jsParseIntOr0 inp.minorVersionInput
                      patch := jsParseIntOr0 inp.patchVersionInput }
        ops := [], warns := [], manifestRead := false } := by
  simp [determineVersion, hsrc]

theorem determineVersion_branch_noinc (inp : Inputs) (env : Env) (b : String) (v : SemVer)
    (hsrc : inp.versionSource = "auto") (hm : env.manifest = none)
    (hbv : getVersionFromBranchName b inp.releaseBranchPattern = some v)
    (hnot : ¬(v.patch = 0 ∧ inp.createTagsInput ≠ "false" ∧ inp.githubToken ≠ "")) :
    determineVersion inp env b =
      { err := none, ver := some v, ops := [], warns := [], manifestRead := true } := by
  simp [determineVersion, hsrc, hm, getVersionFromPackageJson, hbv, hnot]

theorem determineVersion_branch_inc (inp : Inputs) (env : Env) (b : String) (v : SemVer)
    (hsrc : inp.versionSource = "auto") (hm : env.manifest = none)
    (hbv : getVersionFromBranchName b inp.releaseBranchPattern = some v)
    (hcond : v.patch = 0 ∧ inp.createTagsInput ≠ "false" ∧ inp.githubToken ≠ "") :
    determineVersion inp env b =
      { err := none
        ver := some { major := v.major, minor := v.minor,
                      patch := getNextPatchVersion env.listTagsResult
                                 inp.tagPrefixInput v.major v.minor }
        ops := [StoreOp.listTags]
        warns := if env.listTagsResult.isNone then ["Could not fetch existing tags"] else []
        manifestRead := true } := by
  simp [determineVersion, hsrc, hm, getVersionFromPackageJson, hbv, hcond]

theorem not_guard_of_or {inp : Inputs}
    (hguard : inp.createTagsInput = "false" ∨ inp.githubToken ≠ "") :
    ¬(inp.createTagsInput ≠ "false" ∧ inp.githubToken = "") := by
  rcases hguard with h | h
  · intro hh; exact hh.1 h
  · intro hh; exact h hh.2

/-! ## Claim theorems -/

/-- Claim C8: if tag creation is requested (`create-tags` is not the string
"false") but no `github-token` is supplied, the run fails with the
missing-credential message before any work: no manifest read, no remote
call, no outputs, no warnings. -/
theorem missing_credential_fails_fast (inp : Inputs) (env : Env)
    (hc : inp.createTagsInput ≠ "false") (ht : inp.githubToken = "") :
    run inp env =
      { failed := some "github-token is required when create-tags is true",
        warnings := [], outputs := none, ops := [], manifestRead := false } := by
  simp only [run]
  rw [if_pos ⟨hc, ht⟩]

/-- Witness for C8 at a concrete input. -/
theorem missing_credential_fails_fast_witness :
    run ⟨"release/v*", "auto", "v", "true", "", "", "", ""⟩
      ⟨"refs/heads/release/v1", "s", some "1.0.0", some ["v1.0.0"],
        ⟨fun _ => RefStatus.notFound, fun _ => true, fun _ => true⟩⟩ =
      { failed := some "github-token is required when create-tags is true",
        warnings := [], outputs := none, ops := [], manifestRead := false } :=
  missing_credential_fails_fast _ _ (by decide) rfl

/-- Claim C5: in the branch-fallback auto-increment, the resolved patch is
the maximum patch over tag names matching `{prefix}{major}.{minor}.<patch>`
exactly, plus one, or `0` when no tag matches; and concretely, with existing
tags `{v1.0.0}`, branch `release/v1` and no manifest, the run resolves
`1.0.1`. -/
theorem auto_increment_max_plus_one :
    (∀ (tagPrefixInput : String) (major minor : Int) (tags : List String),
      getNextPatchVersion (some tags) tagPrefixInput major minor =
        match (tags.filterMap (fun t =>
            tagPatch (if tagPrefixInput = "" then "v" else tagPrefixInput).data
              major minor t.data)).max? with
        | none => 0
        | some mx => (mx : Int) + 1)
    ∧ ((run ⟨"release/v*", "auto", "v", "true", "t", "", "", ""⟩
        ⟨"refs/heads/release/v1", "s", none, some ["v1.0.0"],
          ⟨fun _ => RefStatus.notFound, fun _ => true, fun _ => true⟩⟩).outputs.map
        Outputs.version) = some "1.0.1" := by
  constructor
  · intro tpi major minor tags
    simp only [getNextPatchVersion]
    rw [foldl_patch_step (fun t =>
      tagPatch (if tpi = "" then "v" else tpi).data major minor t.data)]
    rw [foldl_max_neg_one]
    cases (tags.filterMap (fun t =>
        tagPatch (if tpi = "" then "v" else tpi).data major minor t.data)).max? with
    | none => norm_num
    | some mx => rfl
  · decide

/-- Witness-style corollary of C5 applied at a concrete tag list. -/
theorem auto_increment_max_plus_one_witness :
    getNextPatchVersion (some ["v1.0.0", "v1.0.7", "x1.0.9"]) "v" 1 0 = 8 := by
  rw [auto_increment_max_plus_one.1 "v" 1 0 ["v1.0.0", "v1.0.7", "x1.0.9"]]
  decide

/-- Claim C1 (refuted by the code): with package.json version `1.2.3` on
branch `release/v1` and the patch tag `v1.2.3` already in the store, the run
does NOT fail: it force-moves `v1.2.3` (an `updateRef` call) and reports
success, contradicting the documented `TagAlreadyExists` hard-conflict
behaviour asserted by the repository's README and cucumber scenario. -/
theorem tag_conflict_not_enforced :
    (run ⟨"release/v*", "package.json", "", "", "t", "", "", ""⟩
      ⟨"refs/heads/release/v1", "sha1", some "1.2.3", some ["v1.2.3"],
        ⟨fun t => if t = "v1.2.3" then RefStatus.found else RefStatus.notFound,
         fun _ => true, fun _ => true⟩⟩) =
      { failed := none, warnings := [],
        outputs := some ⟨"1.2.3", "v1,v1.2,v1.2.3", "v1", "v1.2", "v1.2.3"⟩,
        ops := [StoreOp.getRef "v1", StoreOp.createRef "v1" "sha1",
                StoreOp.getRef "v1.2", StoreOp.createRef "v1.2" "sha1",
                StoreOp.getRef "v1.2.3", StoreOp.updateRef "v1.2.3" "sha1"],
        manifestRead := true } := by
  decide

/-- Claim C2 (refuted by the code): branch `release/v1` with manifest
version `2.0.0` in package.json mode resolves successfully to `2.0.0`; no
`VersionMismatch` validation of the manifest against the branch hint is
performed anywhere, contradicting the README's documented validation and the
cucumber mismatch scenarios. -/
theorem version_mismatch_not_enforced :
    (run ⟨"release/v*", "package.json", "", "false", "", "", "", ""⟩
      ⟨"refs/heads/release/v1", "s", some "2.0.0", none,
        ⟨fun _ => RefStatus.notFound, fun _ => true, fun _ => true⟩⟩).failed = none ∧
    ((run ⟨"release/v*", "package.json", "", "false", "", "", "", ""⟩
      ⟨"refs/heads/release/v1", "s", some "2.0.0", none,
        ⟨fun _ => RefStatus.notFound, fun _ => true, fun _ => true⟩⟩).outputs.map
       Outputs.version) = some "2.0.0" := by
  decide

/-- Claim C4 counterexample: on branch `release/v1.2.0` — all three
components literally present, encoded patch 0 — with tag `v1.2.0` existing,
the code performs a tag-store lookup (`listTags`) and auto-increments,
resolving `1.2.1` instead of using the encoded patch as-is. -/
theorem branch_zero_patch_autoincrements :
    ((run ⟨"release/v*", "auto", "", "", "t", "", "", ""⟩
      ⟨"refs/heads/release/v1.2.0", "s", none, some ["v1.2.0"],
        ⟨fun _ => RefStatus.notFound, fun _ => true, fun _ => true⟩⟩).outputs.map
       Outputs.version) = some "1.2.1" ∧
    StoreOp.listTags ∈ (run ⟨"release/v*", "auto", "", "", "t", "", "", ""⟩
      ⟨"refs/heads/release/v1.2.0", "s", none, some ["v1.2.0"],
        ⟨fun _ => RefStatus.notFound, fun _ => true, fun _ => true⟩⟩).ops := by
  decide

/-- Claim C10 counterexample: with create-tags enabled and no token, the run
fails fast with the missing-credential error and produces no outputs at all —
the patch is NOT resolved to 0 as the claim's "(or no token is given)"
parenthetical asserts. -/
theorem no_token_fails_instead_of_resolving :
    run ⟨"release/v*", "auto", "v", "true", "", "", "", ""⟩
      ⟨"refs/heads/release/v1", "s", none, some ["v1.0.0"],
        ⟨fun _ => RefStatus.notFound, fun _ => true, fun _ => true⟩⟩ =
      { failed := some "github-token is required when create-tags is true",
        warnings := [], outputs := none, ops := [], manifestRead := false } := by
  decide

/-- Claim C3: whenever the manifest supplies a version whose major matches a
branch hint that encodes only a major (minor and patch absent, which the
parser reports as 0), resolution in package.json or auto mode succeeds and
returns the manifest version unchanged.  (The code in fact performs no
branch validation at all, so the conclusion holds for any hint.) -/
theorem manifest_version_returned_unchanged (inp : Inputs) (env : Env) (M : Int) (v : SemVer)
    (hsrc : inp.versionSource = "package.json" ∨ inp.versionSource = "auto")
    (hguard : inp.createTagsInput = "false" ∨ inp.githubToken ≠ "")
    (hbr : listStartsWith ("release/".data)
      (stripFirst ("refs/heads/".data) env.ref.data) = true)
    (hhint : getVersionFromBranchName
      (String.mk (stripFirst ("refs/heads/".data) env.ref.data))
      inp.releaseBranchPattern = some { major := M, minor := 0, patch := 0 })
    (hm : getVersionFromPackageJson env.manifest = some v)
    (hmaj : v.major = M) :
    (run inp env).failed = none ∧
    ∃ o, (run inp env).outputs = some o ∧ o.version = verString v := by
  have hdet := determineVersion_manifest inp env
    (String.mk (stripFirst ("refs/heads/".data) env.ref.data)) v hsrc hm
  have h1 : ¬(inp.createTagsInput ≠ "false" ∧ inp.githubToken = "") := not_guard_of_or hguard
  simp only [run, data_mk, if_neg h1, hbr, if_true, hdet]
  exact ⟨trivial, _, rfl, rfl⟩

/-- Witness for C3: branch `release/v1`, manifest `1.1.0` — a minor that the
branch does not mention — resolves to `1.1.0`. -/
theorem manifest_version_returned_unchanged_witness :
    (run ⟨"release/v*", "package.json", "v", "false", "", "", "", ""⟩
      ⟨"refs/heads/release/v1", "s", some "1.1.0", none,
        ⟨fun _ => RefStatus.notFound, fun _ => true, fun _ => true⟩⟩).failed = none ∧
    ∃ o, (run ⟨"release/v*", "package.json", "v", "false", "", "", "", ""⟩
      ⟨"refs/heads/release/v1", "s", some "1.1.0", none,
        ⟨fun _ => RefStatus.notFound, fun _ => true, fun _ => true⟩⟩).outputs = some o ∧
      o.version = verString ⟨1, 1, 0⟩ :=
  manifest_version_returned_unchanged _ _ 1 ⟨1, 1, 0⟩ (Or.inl rfl) (Or.inl rfl)
    (by decide) (by decide) (by decide) rfl

theorem listTags_not_mem_createOrUpdateTag (store : TagStore) (t sha : String) :
    StoreOp.listTags ∉ (createOrUpdateTag store t sha).2 := by
  unfold createOrUpdateTag
  cases store.refStatus t <;> simp

/-- Claim C4 (amended): for every branch name whose hint parses with a
NONZERO patch — which is exactly when a patch component is literally present
and nonzero, since the parser collapses an absent patch to 0 — the
branch-fallback path uses the encoded patch as-is: no tag-store lookup is
performed and the resolved version is the hint verbatim.  (An encoded patch
of 0 is indistinguishable from an absent one and auto-increments instead;
see the counterexample.) -/
theorem branch_nonzero_patch_taken_literally (inp : Inputs) (env : Env) (v : SemVer)
    (hsrc : inp.versionSource = "auto")
    (hguard : inp.createTagsInput = "false" ∨ inp.githubToken ≠ "")
    (hman : env.manifest = none)
    (hbr : listStartsWith ("release/".data)
      (stripFirst ("refs/heads/".data) env.ref.data) = true)
    (hhint : getVersionFromBranchName
      (String.mk (stripFirst ("refs/heads/".data) env.ref.data))
      inp.releaseBranchPattern = some v)
    (hP : v.patch ≠ 0) :
    (run inp env).failed = none ∧
    StoreOp.listTags ∉ (run inp env).ops ∧
    ∃ o, (run inp env).outputs = some o ∧ o.version = verString v := by
  have hdet := determineVersion_branch_noinc inp env
    (String.mk (stripFirst ("refs/heads/".data) env.ref.data)) v hsrc hman hhint
    (fun hh => hP hh.1)
  have h1 : ¬(inp.createTagsInput ≠ "false" ∧ inp.githubToken = "") := not_guard_of_or hguard
  simp only [run, data_mk, if_neg h1, hbr, if_true, hdet]
  refine ⟨trivial, ?_, _, rfl, rfl⟩
  by_cases hct : inp.createTagsInput ≠ "false" <;>
    simp [hct, listTags_not_mem_createOrUpdateTag]

/-- Witness for the amended C4: branch `release/v1.2.3` resolves `1.2.3`
with no `listTags` call even though tags exist in the store. -/
theorem branch_nonzero_patch_taken_literally_witness :
    (run ⟨"release/v*", "auto", "v", "true", "t", "", "", ""⟩
      ⟨"refs/heads/release/v1.2.3", "s", none, some ["v1.2.3"],
        ⟨fun _ => RefStatus.notFound, fun _ => true, fun _ => true⟩⟩).failed = none ∧
    StoreOp.listTags ∉ (run ⟨"release/v*", "auto", "v", "true", "t", "", "", ""⟩
      ⟨"refs/heads/release/v1.2.3", "s", none, some ["v1.2.3"],
        ⟨fun _ => RefStatus.notFound, fun _ => true, fun _ => true⟩⟩).ops ∧
    ∃ o, (run ⟨"release/v*", "auto", "v", "true", "t", "", "", ""⟩
      ⟨"refs/heads/release/v1.2.3", "s", none, some ["v1.2.3"],
        ⟨fun _ => RefStatus.notFound, fun _ => true, fun _ => true⟩⟩).outputs = some o ∧
      o.version = verString ⟨1, 2, 3⟩ :=
  branch_nonzero_patch_taken_literally _ _ ⟨1, 2, 3⟩ rfl (Or.inr (by decide))
    rfl (by decide) (by decide) (by decide)

/-- Claim C6: in manual mode the run returns exactly the supplied triple, on
any release branch and with no validation against the branch name (first
conjunct); and components whose input string does not parse as a number —
including the empty string returned for a missing input — default to 0
(second conjunct). -/
theorem manual_mode_verbatim :
    (∀ (inp : Inputs) (env : Env) (M m p : Nat),
      inp.versionSource = "manual" →
      (inp.createTagsInput = "false" ∨ inp.githubToken ≠ "") →
      listStartsWith ("release/".data)
        (stripFirst ("refs/heads/".data) env.ref.data) = true →
      inp.majorVersionInput = String.mk (natToDec M) →
      inp.minorVersionInput = String.mk (natToDec m) →
      inp.patchVersionInput = String.mk (natToDec p) →
      (run inp env).failed = none ∧
      ∃ o, (run inp env).outputs = some o ∧
        o.version = verString ⟨(M : Int), (m : Int), (p : Int)⟩)
    ∧
    (∀ (inp : Inputs) (env : Env),
      inp.versionSource = "manual" →
      (inp.createTagsInput = "false" ∨ inp.githubToken ≠ "") →
      listStartsWith ("release/".data)
        (stripFirst ("refs/heads/".data) env.ref.data) = true →
      jsParseIntL inp.majorVersionInput.data = none →
      jsParseIntL inp.minorVersionInput.data = none →
      jsParseIntL inp.patchVersionInput.data = none →
      (run inp env).failed = none ∧
      ∃ o, (run inp env).outputs = some o ∧ o.version = verString ⟨0, 0, 0⟩) := by
  constructor
  · intro inp env M m p hsrc hguard hbr hM hm hp
    have hdet := determineVersion_manual inp env
      (String.mk (stripFirst ("refs/heads/".data) env.ref.data)) hsrc
    rw [hM, hm, hp, jsParseIntOr0_natToDec, jsParseIntOr0_natToDec,
      jsParseIntOr0_natToDec] at hdet
    have h1 : ¬(inp.createTagsInput ≠ "false" ∧ inp.githubToken = "") :=
      not_guard_of_or hguard
    simp only [run, data_mk, if_neg h1, hbr, if_true, hdet]
    exact ⟨trivial, _, rfl, rfl⟩
  · intro inp env hsrc hguard hbr hM hm hp
    have hdet := determineVersion_manual inp env
      (String.mk (stripFirst ("refs/heads/".data) env.ref.data)) hsrc
    rw [show jsParseIntOr0 inp.majorVersionInput = 0 by simp [jsParseIntOr0, hM],
      show jsParseIntOr0 inp.minorVersionInput = 0 by simp [jsParseIntOr0, hm],
      show jsParseIntOr0 inp.patchVersionInput = 0 by simp [jsParseIntOr0, hp]] at hdet
    have h1 : ¬(inp.createTagsInput ≠ "false" ∧ inp.githubToken = "") :=
      not_guard_of_or hguard
    simp only [run, data_mk, if_neg h1, hbr, if_true, hdet]
    exact ⟨trivial, _, rfl, rfl⟩

/-- Witness for C6: manual `3.2.1` on branch `release/v1` returns `3.2.1`,
and manual inputs `""`, `"abc"`, `"x"` return `0.0.0`. -/
theorem manual_mode_verbatim_witness :
    ((run ⟨"release/v*", "manual", "v", "false", "", "3", "2", "1"⟩
      ⟨"refs/heads/release/v1", "s", none, none,
        ⟨fun _ => RefStatus.notFound, fun _ => true, fun _ => true⟩⟩).failed = none ∧
     ∃ o, (run ⟨"release/v*", "manual", "v", "false", "", "3", "2", "1"⟩
      ⟨"refs/heads/release/v1", "s", none, none,
        ⟨fun _ => RefStatus.notFound, fun _ => true, fun _ => true⟩⟩).outputs = some o ∧
       o.version = verString ⟨(3 : Nat), (2 : Nat), (1 : Nat)⟩) ∧
    ((run ⟨"release/v*", "manual", "v", "false", "", "", "abc", "x"⟩
      ⟨"refs/heads/release/v1", "s", none, none,
        ⟨fun _ => RefStatus.notFound, fun _ => true, fun _ => true⟩⟩).failed = none ∧
     ∃ o, (run ⟨"release/v*", "manual", "v", "false", "", "", "abc", "x"⟩
      ⟨"refs/heads/release/v1", "s", none, none,
        ⟨fun _ => RefStatus.notFound, fun _ => true, fun _ => true⟩⟩).outputs = some o ∧
       o.version = verString ⟨0, 0, 0⟩) :=
  ⟨manual_mode_verbatim.1 _ _ 3 2 1 rfl (Or.inl rfl) (by decide)
     (by decide) (by decide) (by decide),
   manual_mode_verbatim.2 _ _ rfl (Or.inl rfl) (by decide) rfl (by decide) (by decide)⟩

/-- Claim C7: when the major tag's create/move fails but the minor and patch
operations succeed, the run does not abort: it still reports the resolved
version and lists exactly the minor and patch tags as created/updated, with
the major tag excluded. -/
theorem major_tag_failure_nonfatal (inp : Inputs) (env : Env) (v : SemVer)
    (hsrc : inp.versionSource = "package.json")
    (hct : inp.createTagsInput ≠ "false")
    (htok : inp.githubToken ≠ "")
    (hbr : listStartsWith ("release/".data)
      (stripFirst ("refs/heads/".data) env.ref.data) = true)
    (hm : getVersionFromPackageJson env.manifest = some v)
    (h1 : (createOrUpdateTag env.store
      (majorTagName (if inp.tagPrefixInput = "" then "v" else inp.tagPrefixInput) v)
      env.sha).1 = false)
    (h2 : (createOrUpdateTag env.store
      (minorTagName (if inp.tagPrefixInput = "" then "v" else inp.tagPrefixInput) v)
      env.sha).1 = true)
    (h3 : (createOrUpdateTag env.store
      (patchTagName (if inp.tagPrefixInput = "" then "v" else inp.tagPrefixInput) v)
      env.sha).1 = true) :
    (run inp env).failed = none ∧
    ∃ o, (run inp env).outputs = some o ∧ o.version = verString v ∧
      o.tags = minorTagName (if inp.tagPrefixInput = "" then "v" else inp.tagPrefixInput) v
        ++ "," ++
        patchTagName (if inp.tagPrefixInput = "" then "v" else inp.tagPrefixInput) v := by
  have hdet := determineVersion_manifest inp env
    (String.mk (stripFirst ("refs/heads/".data) env.ref.data)) v (Or.inl hsrc) hm
  have hg : ¬(inp.createTagsInput ≠ "false" ∧ inp.githubToken = "") :=
    fun hh => htok hh.2
  simp only [run, data_mk, if_neg hg, hbr, if_true, hdet, if_pos hct, h1, h2, h3]
  refine ⟨trivial, _, rfl, rfl, ?_⟩
  simp [joinComma]

/-- Witness for C7: the store refuses the `v1` move but accepts `v1.0` and
`v1.0.0`; the run reports version `1.0.0` with tags `v1.0,v1.0.0`. -/
theorem major_tag_failure_nonfatal_witness :
    (run ⟨"release/v*", "package.json", "", "true", "t", "", "", ""⟩
      ⟨"refs/heads/release/v1", "s", some "1.0.0", none,
        ⟨fun t => if t = "v1" then RefStatus.found else RefStatus.notFound,
         fun _ => true, fun t => t ≠ "v1"⟩⟩).failed = none ∧
    ∃ o, (run ⟨"release/v*", "package.json", "", "true", "t", "", "", ""⟩
      ⟨"refs/heads/release/v1", "s", some "1.0.0", none,
        ⟨fun t => if t = "v1" then RefStatus.found else RefStatus.notFound,
         fun _ => true, fun t => t ≠ "v1"⟩⟩).outputs = some o ∧
      o.version = verString ⟨1, 0, 0⟩ ∧
      o.tags = minorTagName "v" ⟨1, 0, 0⟩ ++ "," ++ patchTagName "v" ⟨1, 0, 0⟩ :=
  major_tag_failure_nonfatal _ _ ⟨1, 0, 0⟩ rfl (by decide) (by decide) (by decide)
    (by decide) (by decide) (by decide) (by decide)

theorem getNextPatchVersion_none (tagPrefixInput : String) (major minor : Int) :
    getNextPatchVersion none tagPrefixInput major minor = 0 := rfl

/-- Claim C9: if listing the existing tags fails (`listTagsResult = none`),
the run is not failed: the failure is logged as a warning, the tag set is
treated exactly like an empty listing, and the auto-increment resolves the
patch component to 0. -/
theorem list_tags_failure_warns (inp : Inputs) (env : Env) (v : SemVer)
    (hsrc : inp.versionSource = "auto")
    (hct : inp.createTagsInput ≠ "false")
    (htok : inp.githubToken ≠ "")
    (hman : env.manifest = none)
    (hbr : listStartsWith ("release/".data)
      (stripFirst ("refs/heads/".data) env.ref.data) = true)
    (hhint : getVersionFromBranchName
      (String.mk (stripFirst ("refs/heads/".data) env.ref.data))
      inp.releaseBranchPattern = some v)
    (hP : v.patch = 0)
    (hlist : env.listTagsResult = none) :
    (run inp env).failed = none ∧
    "Could not fetch existing tags" ∈ (run inp env).warnings ∧
    (∃ o, (run inp env).outputs = some o ∧
      o.version = verString ⟨v.major, v.minor, 0⟩) ∧
    getNextPatchVersion none inp.tagPrefixInput v.major v.minor =
      getNextPatchVersion (some []) inp.tagPrefixInput v.major v.minor := by
  have hdet := determineVersion_branch_inc inp env
    (String.mk (stripFirst ("refs/heads/".data) env.ref.data)) v hsrc hman hhint
    ⟨hP, hct, htok⟩
  rw [hlist, getNextPatchVersion_none] at hdet
  have hg : ¬(inp.createTagsInput ≠ "false" ∧ inp.githubToken = "") :=
    fun hh => htok hh.2
  simp only [run, data_mk, if_neg hg, hbr, if_true, hdet, Option.isNone_none, if_pos]
  exact ⟨trivial, by simp, ⟨_, rfl, rfl⟩, rfl⟩

/-- Witness for C9 at a concrete input. -/
theorem list_tags_failure_warns_witness :
    (run ⟨"release/v*", "auto", "v", "true", "t", "", "", ""⟩
      ⟨"refs/heads/release/v1", "s", none, none,
        ⟨fun _ => RefStatus.notFound, fun _ => true, fun _ => true⟩⟩).failed = none ∧
    "Could not fetch existing tags" ∈ (run ⟨"release/v*", "auto", "v", "true", "t", "", "", ""⟩
      ⟨"refs/heads/release/v1", "s", none, none,
        ⟨fun _ => RefStatus.notFound, fun _ => true, fun _ => true⟩⟩).warnings ∧
    (∃ o, (run ⟨"release/v*", "auto", "v", "true", "t", "", "", ""⟩
      ⟨"refs/heads/release/v1", "s", none, none,
        ⟨fun _ => RefStatus.notFound, fun _ => true, fun _ => true⟩⟩).outputs = some o ∧
      o.version = verString ⟨(⟨1, 0, 0⟩ : SemVer).major, (⟨1, 0, 0⟩ : SemVer).minor, 0⟩) ∧
    getNextPatchVersion none "v" (⟨1, 0, 0⟩ : SemVer).major (⟨1, 0, 0⟩ : SemVer).minor =
      getNextPatchVersion (some []) "v" (⟨1, 0, 0⟩ : SemVer).major
        (⟨1, 0, 0⟩ : SemVer).minor :=
  list_tags_failure_warns _ _ ⟨1, 0, 0⟩ rfl (by decide) (by decide) rfl
    (by decide) (by decide) rfl rfl

theorem listTags_mem_determineVersion_ops (inp : Inputs) (env : Env) (b : String) :
    StoreOp.listTags ∈ (determineVersion inp env b).ops →
    inp.createTagsInput ≠ "false" ∧ inp.githubToken ≠ "" := by
  intro h
  simp only [determineVersion] at h
  by_cases h1 : (if inp.versionSource = "" then "auto" else inp.versionSource) = "manual"
  · rw [if_pos h1] at h
    simp at h
  · rw [if_neg h1] at h
    by_cases h2 : (if inp.versionSource = "" then "auto" else inp.versionSource)
        = "package.json"
    · rw [if_pos h2] at h
      rcases hm : getVersionFromPackageJson env.manifest with _ | v <;>
        rw [hm] at h <;> simp at h
    · rw [if_neg h2] at h
      rcases hm : getVersionFromPackageJson env.manifest with _ | v
      · simp only [hm] at h
        rcases hb : getVersionFromBranchName b inp.releaseBranchPattern with _ | v
        · simp only [hb] at h
          simp at h
        · simp only [hb] at h
          by_cases hc : (v.patch = 0 ∧ inp.createTagsInput ≠ "false" ∧
              inp.githubToken ≠ "")
          · exact ⟨hc.2.1, hc.2.2⟩
          · simp only [if_neg hc] at h
            simp at h
      · simp only [hm] at h
        simp at h

/-- Claim C10 (amended): in the auto branch-fallback with branch-derived
patch 0, when `create-tags` is "false" the patch resolves to 0 with no
`listTags` call, regardless of the store (first conjunct); and a `listTags`
call can only ever happen when tag creation is enabled AND a token is
present (second conjunct).  When create-tags is enabled without a token the
run instead fails fast before any resolution (see the counterexample). -/
theorem increment_only_when_creating_tags :
    (∀ (inp : Inputs) (env : Env) (v : SemVer),
      inp.versionSource = "auto" →
      inp.createTagsInput = "false" →
      env.manifest = none →
      listStartsWith ("release/".data)
        (stripFirst ("refs/heads/".data) env.ref.data) = true →
      getVersionFromBranchName
        (String.mk (stripFirst ("refs/heads/".data) env.ref.data))
        inp.releaseBranchPattern = some v →
      v.patch = 0 →
      (run inp env).failed = none ∧
      StoreOp.listTags ∉ (run inp env).ops ∧
      ∃ o, (run inp env).outputs = some o ∧ o.version = verString v)
    ∧
    (∀ (inp : Inputs) (env : Env),
      StoreOp.listTags ∈ (run inp env).ops →
      inp.createTagsInput ≠ "false" ∧ inp.githubToken ≠ "") := by
  constructor
  · intro inp env v hsrc hoff hman hbr hhint hP
    have hdet := determineVersion_branch_noinc inp env
      (String.mk (stripFirst ("refs/heads/".data) env.ref.data)) v hsrc hman hhint
      (fun hh => hh.2.1 hoff)
    have hg : ¬(inp.createTagsInput ≠ "false" ∧ inp.githubToken = "") :=
      fun hh => hh.1 hoff
    have hctf : ¬(inp.createTagsInput ≠ "false") := fun hh => hh hoff
    simp only [run, data_mk, if_neg hg, hbr, if_true, hdet, if_neg hctf]
    exact ⟨trivial, by simp, _, rfl, rfl⟩
  · intro inp env hmem
    simp only [run, data_mk] at hmem
    by_cases hg : inp.createTagsInput ≠ "false" ∧ inp.githubToken = ""
    · rw [if_pos hg] at hmem
      simp at hmem
    · rw [if_neg hg] at hmem
      by_cases hbr : listStartsWith ("release/".data)
          (stripFirst ("refs/heads/".data) env.ref.data) = true
      · rw [if_pos hbr] at hmem
        rcases hver : (determineVersion inp env
            (String.mk (stripFirst ("refs/heads/".data) env.ref.data))).ver with _ | v
        · rw [hver] at hmem
          simp only at hmem
          exact listTags_mem_determineVersion_ops inp env _ hmem
        · rw [hver] at hmem
          simp only at hmem
          rcases List.mem_append.mp hmem with hmem1 | hmem2
          · exact listTags_mem_determineVersion_ops inp env _ hmem1
          · by_cases hct : inp.createTagsInput ≠ "false"
            · rw [if_pos hct] at hmem2
              simp [List.mem_append, listTags_not_mem_createOrUpdateTag] at hmem2
            · rw [if_neg hct] at hmem2
              simp at hmem2
      · rw [if_neg hbr] at hmem
        simp at hmem

/-- Witness for the amended C10: create-tags off, tags present in store,
branch `release/v1` — resolves `1.0.0` with no `listTags` call. -/
theorem increment_only_when_creating_tags_witness :
    (run ⟨"release/v*", "auto", "v", "false", "", "", "", ""⟩
      ⟨"refs/heads/release/v1", "s", none, some ["v1.0.0", "v1.0.1"],
        ⟨fun _ => RefStatus.notFound, fun _ => true, fun _ => true⟩⟩).failed = none ∧
    StoreOp.listTags ∉ (run ⟨"release/v*", "auto", "v", "false", "", "", "", ""⟩
      ⟨"refs/heads/release/v1", "s", none, some ["v1.0.0", "v1.0.1"],
        ⟨fun _ => RefStatus.notFound, fun _ => true, fun _ => true⟩⟩).ops ∧
    ∃ o, (run ⟨"release/v*", "auto", "v", "false", "", "", "", ""⟩
      ⟨"refs/heads/release/v1", "s", none, some ["v1.0.0", "v1.0.1"],
        ⟨fun _ => RefStatus.notFound, fun _ => true, fun _ => true⟩⟩).outputs = some o ∧
      o.version = verString ⟨1, 0, 0⟩ :=
  increment_only_when_creating_tags.1 _ _ ⟨1, 0, 0⟩ rfl rfl rfl (by decide)
    (by decide) rfl

end Autoversion
